import Mathlib

/-!
Verification of the Simple-File-System HTTP upload server (src/main.go)
against its natural-language specification.

The Go program is shallowly embedded: strings are Lean `String`s (lists of
characters), the on-disk state is an association list from paths to file
contents, and each HTTP handler is a pure function from the request data and
the ambient state to a `Response`.  I/O failure points of the Go code
(`os.OpenFile`, `io.Copy`, the log append, UUID entropy, `filepath.Walk`)
are surfaced as explicit boolean/option parameters so every error branch of
the source is representable.
-/

/-- `Config` mirrors the `Config` struct of main.go (port, log_timestamp,
custom_html_head, custom_html_body, enable_xss_protection). -/
structure Config where
  Port : Int
  LogTimestamp : Bool
  CustomHTMLHead : String
  CustomHTMLBody : String
  EnableXSSProtection : Bool
deriving DecidableEq

/-- `FileMetadata` mirrors the `FileMetadata` struct of main.go. -/
structure FileMetadata where
  ID : String
  Filename : String
deriving DecidableEq, Repr

/-- The `uploadsDir` constant of main.go. -/
def uploadsDir : String := "uploads"

/-- The `logFileName` constant of main.go. -/
def logFileName : String := "log.txt"

/-!  ### Go `fmt.Sprintf` on string arguments

The source formats every page with `fmt.Fprintf`/`fmt.Sprintf` using only
`%s` verbs and string arguments.  `goFmtAux` models Go's `fmt` scanner for
that fragment, including the artifacts Go emits on mismatches:
`%!v(MISSING)` when the arguments run out, `%!(NOVERB)` for a `%` ending the
format, `%!v(string=arg)` for a non-`s` verb applied to a string argument,
and a trailing `%!(EXTRA string=a, ...)` for unconsumed arguments. -/

def goExtra (args : List String) : List Char :=
  match args with
  | [] => []
  | _ :: _ =>
    "%!(EXTRA ".data ++
      (String.intercalate ", " (args.map (fun a => "string=" ++ a))).data ++ [')']

def goFmtAux : List Char → List String → List Char
  | [], args => goExtra args
  | ['%'], args => "%!(NOVERB)".data ++ goExtra args
  | '%' :: '%' :: rest, args => '%' :: goFmtAux rest args
  | '%' :: v :: rest, [] => '%' :: '!' :: v :: ("(MISSING)".data ++ goFmtAux rest [])
  | '%' :: v :: rest, a :: args =>
    if v = 's' then a.data ++ goFmtAux rest args
    else '%' :: '!' :: v :: ("(string=".data ++ a.data ++ ')' :: goFmtAux rest args)
  | c :: rest, args => c :: goFmtAux rest args

def goSprintf (fmtStr : String) (args : List String) : String :=
  ⟨goFmtAux fmtStr.data args⟩

/-!  ### Paths

Models of the Go `path/filepath` functions used by main.go, on the Unix
separator `'/'`.  `filepathJoin` does not re-apply Go's `Clean`
normalisation (its inputs here are the literal `"uploads"` and a raw
identifier; none of the verified claims depends on `Clean`).
`filepathRel` is modelled for targets equal to the base or lying beneath
it — the only shapes `filepath.Walk` over the storage root produces. -/

def filepathJoin (a b : String) : String :=
  if a.data.isEmpty then b
  else if b.data.isEmpty then a
  else ⟨a.data ++ '/' :: b.data⟩

/-- Scan of `filepath.Ext`: walk the path backwards; stop at a separator;
return the suffix from the last `'.'`.  The first argument is the reversed
path, the second the (in-order) characters already passed. -/
def extAux : List Char → List Char → List Char
  | [], _ => []
  | c :: rest, acc =>
    if c = '/' then []
    else if c = '.' then c :: acc
    else extAux rest (c :: acc)

def filepathExt (p : String) : String := ⟨extAux p.data.reverse []⟩

/-- `filepath.Base`: empty path gives `"."`; trailing separators are
stripped; the last component is returned; an all-separator path gives
`"/"`. -/
def filepathBase (p : String) : String :=
  if p.data = [] then "."
  else
    let t := (p.data.reverse.dropWhile (fun c => c = '/')).reverse
    if t = [] then ⟨['/']⟩
    else ⟨(t.reverse.takeWhile (fun c => c ≠ '/')).reverse⟩

def filepathRel (basep targ : String) : Option String :=
  if targ = basep then some "."
  else if List.isPrefixOf (basep.data ++ ['/']) targ.data then
    some ⟨targ.data.drop (basep.data.length + 1)⟩
  else none

/-!  ### Filesystem state

The storage directory as an association list from paths to file contents.
`fsCreateIfAbsent` models `os.OpenFile` with `O_WRONLY|O_CREATE` (and,
crucially, without `O_TRUNC` or `O_EXCL`): an absent file is created empty,
an existing file keeps its bytes.  `fsStore` models the subsequent
`io.Copy` writing the upload from offset zero: bytes of a longer
pre-existing file beyond the written length survive (`overwriteFrom0`). -/

abbrev FileSystem := List (String × String)

def fsLookup : FileSystem → String → Option String
  | [], _ => none
  | (p, c) :: rest, q => if p = q then some c else fsLookup rest q

def fsCreateIfAbsent (fs : FileSystem) (p : String) : FileSystem :=
  match fsLookup fs p with
  | some _ => fs
  | none => fs ++ [(p, "")]

def overwriteFrom0 (old new : String) : String :=
  ⟨new.data ++ old.data.drop new.data.length⟩

def fsStore : FileSystem → String → String → FileSystem
  | [], p, d => [(p, d)]
  | (q, old) :: rest, p, d =>
    if q = p then (q, overwriteFrom0 old d) :: rest
    else (q, old) :: fsStore rest p d

/-!  ### HTTP responses -/

/-- The observable outcome of one handler invocation: an HTML page write, a
`http.NotFound`, a `http.Error` with status code, or a served file
(`Content-Disposition` header, `Content-Type` header, body bytes). -/
inductive Response where
  | html (body : String)
  | notFound
  | httpError (msg : String) (code : Nat)
  | file (contentDisposition contentType : String) (body : String)
deriving DecidableEq

/-- HTTP status code of a response (an `html`/`file` write is a 200). -/
def statusOf : Response → Nat
  | .html _ => 200
  | .notFound => 404
  | .httpError _ code => code
  | .file _ _ _ => 200

/-- Result of a handler that can also change the storage directory and the
log file (`none` = the log file does not exist yet). -/
structure HandlerResult where
  response : Response
  fs : FileSystem
  logFile : Option String
deriving DecidableEq

/-!  ### Page templates (the format strings of main.go, verbatim) -/

def indexFmt : String := "\n<!DOCTYPE html>\n<html>\n<head>\n    <title>文件上传</title>\n    <style>\n        %s\n    </style>\n</head>\n<body>\n    %s\n    <h1>文件上传</h1>\n    <form action=\"/upload\" method=\"post\" enctype=\"multipart/form-data\">\n        <input type=\"file\" name=\"file\" id=\"file\">\n        <input type=\"submit\" value=\"上传\">\n    </form>\n    <br>\n    <a href=\"/list\">查看文件列表</a>\n</body>\n</html>\n"

def uploadOkFmt : String := "\n<!DOCTYPE html>\n<html>\n<head>\n    <title>文件上传成功</title>\n    <style>\n        %s\n    </style>\n</head>\n<body>\n    %s\n    <h1>文件上传成功</h1>\n    <p>文件已上传！</p>\n    <p><a href=\"%s\">点击这里</a>查看文件列表。</p>\n</body>\n</html>\n"

def listPreFmt : String := "\n<!DOCTYPE html>\n<html>\n<head>\n    <title>文件列表</title>\n    <style>\n        %s\n        table \x7b\n            border-collapse: collapse;\n            width: 100%;\n        \x7d\n        th, td \x7b\n            text-align: left;\n            padding: 8px;\n            border-bottom: 1px solid #ddd;\n        \x7d\n        tr:hover \x7b\n            background-color: #f5f5f5;\n        \x7d\n        th \x7b\n            background-color: #4CAF50;\n            color: white;\n        \x7d\n    </style>\n</head>\n<body>\n    %s\n    <h1>文件列表</h1>\n    <table>\n        <tr>\n            <th>ID</th>\n            <th>文件名</th>\n        </tr>\n"

def listRowFmt : String := "<tr><td>%s</td><td>%s</td></tr>"

def listPostFmt : String := "\n    </table>\n    <br>\n    <a href=\"/\">返回上传页面</a>\n</body>\n</html>\n"

def fileURLFmt : String := "/file/%s"

def dispositionFmt : String := "inline; filename=\"%s\""

def logLineFmt : String := "%s\n"

def logTimestampFmt : String := " [%s]"

/-!  ### The functions of main.go -/

/-- `generateUUID`: `uuid.NewRandom()` either yields a canonical UUID
string, or fails, in which case the function returns `""`.  The `entropy`
parameter is the outcome of the entropy source: `some u` stands for a
successful draw whose canonical text form is `u`. -/
def generateUUID (entropy : Option String) : String :=
  match entropy with
  | none => ""
  | some u => u

/-- `writeLog`: open `logFileName` with `O_WRONLY|O_CREATE|O_APPEND`
(creating an absent file empty) and append `fmt.Sprintf("%s\n", message)`.
`openOk`/`writeOk` are the outcomes of the two fallible steps; on open
failure nothing changes, on write failure the file exists but gains
nothing (the error is only printed to the console). -/
def writeLog (openOk writeOk : Bool) (logFile : Option String) (message : String) :
    Option String :=
  if openOk = false then logFile
  else
    let current := logFile.getD ""
    if writeOk = false then some current
    else some (current ++ goSprintf logLineFmt [message])

/-- `indexHandler`. -/
def indexHandler (cfg : Config) (method : String) : Response :=
  if method = "GET" then
    Response.html (goSprintf indexFmt [cfg.CustomHTMLHead, cfg.CustomHTMLBody])
  else Response.notFound

/-- `uploadHandler`.  `form` is the outcome of `r.FormFile("file")`
(`some (handler.Filename, content)` on success), `entropy` feeds
`generateUUID`, `openOk`/`copyOk` are the outcomes of `os.OpenFile` on the
target and of `io.Copy`, `logOpenOk`/`logWriteOk` feed `writeLog`, and
`now` is the formatted `time.Now()` text. -/
def uploadHandler (cfg : Config) (method : String) (form : Option (String × String))
    (entropy : Option String) (openOk copyOk logOpenOk logWriteOk : Bool)
    (now : String) (fs : FileSystem) (logFile : Option String) : HandlerResult :=
  if method = "POST" then
    match form with
    | none => ⟨Response.httpError "Bad Request" 400, fs, logFile⟩
    | some (filename, content) =>
      let fileExt := filepathExt filename
      let fileID := generateUUID entropy ++ fileExt
      let filePath := filepathJoin uploadsDir fileID
      if openOk = false then
        ⟨Response.httpError "Internal Server Error" 500, fs, logFile⟩
      else
        let fsOpened := fsCreateIfAbsent fs filePath
        if copyOk = false then
          ⟨Response.httpError "Internal Server Error" 500, fsOpened, logFile⟩
        else
          let fsWritten := fsStore fsOpened filePath content
          let logMessage :=
            if cfg.LogTimestamp then filename ++ goSprintf logTimestampFmt [now]
            else filename
          let logFileNew := writeLog logOpenOk logWriteOk logFile logMessage
          let fileURL := goSprintf fileURLFmt [fileID]
          ⟨Response.html (goSprintf uploadOkFmt
              [cfg.CustomHTMLHead, cfg.CustomHTMLBody, fileURL]),
            fsWritten, logFileNew⟩
  else ⟨Response.notFound, fs, logFile⟩

/-- `getFileList` body: the fold `filepath.Walk` performs over its
enumeration of the storage directory (each visited path with its `IsDir`
flag), in visiting order. -/
def getFileListAux : List (String × Bool) → List FileMetadata → Option (List FileMetadata)
  | [], acc => some acc
  | (path, isDir) :: rest, acc =>
    if isDir then getFileListAux rest acc
    else
      match filepathRel uploadsDir path with
      | none => none
      | some relPath =>
        getFileListAux rest (acc ++ [⟨relPath, filepathBase relPath⟩])

/-- `getFileList`.  `walkErr` is a walk-callback error (the `err` argument
of the closure), which aborts the walk and makes `getFileList` fail. -/
def getFileList (walkErr : Bool) (walk : List (String × Bool)) :
    Option (List FileMetadata) :=
  if walkErr then none else getFileListAux walk []

/-- Body of the `/list` page: the preamble `Fprintf` (whose format string
holds two `%s` verbs and a bare `%` in the CSS but receives NO arguments),
one formatted row per file, and the footer `Fprintf`. -/
def listPageBody (files : List FileMetadata) : String :=
  goSprintf listPreFmt [] ++
    String.join (files.map (fun f => goSprintf listRowFmt [f.ID, f.Filename])) ++
    goSprintf listPostFmt []

/-- `listHandler`.  The global `config` is in scope in the source but never
consulted by this handler; it is kept as a parameter so that
config-independence is statable. -/
def listHandler (cfg : Config) (method : String) (walkErr : Bool)
    (walk : List (String × Bool)) : Response :=
  if method = "GET" then
    match getFileList walkErr walk with
    | none => Response.httpError "Internal Server Error" 500
    | some files => Response.html (listPageBody files)
  else Response.notFound

/-- Serving part of `fileHandler`, after the identifier has been cut out of
the URL path: join onto the storage root, `os.Stat` (absence gives
`http.NotFound`), then the two headers and `http.ServeFile`.  `mimeTable`
is `mime.TypeByExtension` (system dependent, `""` for an unknown
extension). -/
def fileServe (mimeTable : String → String) (fs : FileSystem) (fileID : String) :
    Response :=
  let filePath := filepathJoin uploadsDir fileID
  match fsLookup fs filePath with
  | none => Response.notFound
  | some content =>
    let filename := filepathBase filePath
    let contentType := mimeTable (filepathExt filename)
    Response.file (goSprintf dispositionFmt [filename])
      (if contentType = "" then "application/octet-stream" else contentType)
      content

/-- `fileHandler`: method gate, then `r.URL.Path[len("/file/"):]` feeds
`fileServe`.  The global `config` is in scope in the source but never
consulted; kept as a parameter so that config-independence is statable. -/
def fileHandler (mimeTable : String → String) (cfg : Config)
    (method urlPath : String) (fs : FileSystem) : Response :=
  if method = "GET" then
    fileServe mimeTable fs ⟨urlPath.data.drop 6⟩
  else Response.notFound

/-!  ### Helper facts -/

theorem stringDataExt {a b : String} (h : a.data = b.data) : a = b := by
  cases a; cases b; exact congrArg String.mk h

/-- Substring occurrence test (anywhere in `s`). -/
def hasOccur (pat : List Char) : List Char → Bool
  | [] => pat.isEmpty
  | c :: t => pat.isPrefixOf (c :: t) || hasOccur pat t

/-- Number of start positions of `s` at which `pat` occurs. -/
def countOccur (pat : List Char) : List Char → Nat
  | [] => if pat.isEmpty then 1 else 0
  | c :: t => (if pat.isPrefixOf (c :: t) then 1 else 0) + countOccur pat t

/-- `strEndsWith s t` holds when `t` is a suffix of `s`. -/
def strEndsWith (s t : String) : Bool := t.data.isSuffixOf s.data

theorem isPrefixOf_append_of {l s : List Char} (t : List Char)
    (h : l.isPrefixOf s = true) : l.isPrefixOf (s ++ t) = true := by
  induction l generalizing s with
  | nil => simp [List.isPrefixOf]
  | cons x xs ih =>
    cases s with
    | nil => simp [List.isPrefixOf] at h
    | cons y ys =>
      simp only [List.cons_append, List.isPrefixOf, Bool.and_eq_true] at h ⊢
      exact ⟨h.1, ih h.2⟩

theorem isPrefixOf_self_append (s t : List Char) : s.isPrefixOf (s ++ t) = true := by
  induction s with
  | nil => simp [List.isPrefixOf]
  | cons x xs ih => simp [List.isPrefixOf, ih]

theorem hasOccur_nil (s : List Char) : hasOccur [] s = true := by
  cases s <;> simp [hasOccur, List.isPrefixOf]

theorem hasOccur_append {pat a : List Char} (b : List Char)
    (h : hasOccur pat a = true) : hasOccur pat (a ++ b) = true := by
  induction a with
  | nil =>
    have hp : pat = [] := by
      have := h
      simp [hasOccur, List.isEmpty_iff] at this
      exact this
    subst hp
    exact hasOccur_nil _
  | cons c t ih =>
    simp only [hasOccur, Bool.or_eq_true] at h
    rcases h with h | h
    · show (pat.isPrefixOf ((c :: t) ++ b) || hasOccur pat (t ++ b)) = true
      rw [isPrefixOf_append_of b h]
      rfl
    · show (pat.isPrefixOf ((c :: t) ++ b) || hasOccur pat (t ++ b)) = true
      rw [ih h]
      simp

theorem strEndsWith_append (u t : String) : strEndsWith (u ++ t) t = true := by
  show t.data.isSuffixOf (u.data ++ t.data) = true
  show t.data.reverse.isPrefixOf (u.data ++ t.data).reverse = true
  rw [List.reverse_append]
  exact isPrefixOf_self_append _ _

theorem fsLookup_append_of_none {fs : FileSystem} {p : String} (l : FileSystem)
    (h : fsLookup fs p = none) : fsLookup (fs ++ l) p = fsLookup l p := by
  induction fs with
  | nil => rfl
  | cons e rest ih =>
    obtain ⟨q, c⟩ := e
    by_cases hq : q = p
    · simp [fsLookup, hq] at h
    · simp only [fsLookup, if_neg hq] at h
      show fsLookup ((q, c) :: (rest ++ l)) p = fsLookup l p
      simp only [fsLookup, if_neg hq]
      exact ih h

theorem fsLookup_store (fs : FileSystem) (p c : String) :
    fsLookup (fsStore fs p c) p =
      some (match fsLookup fs p with
            | none => c
            | some old => overwriteFrom0 old c) := by
  induction fs with
  | nil => simp [fsStore, fsLookup]
  | cons e rest ih =>
    obtain ⟨q, old⟩ := e
    by_cases hq : q = p
    · simp [fsStore, fsLookup, hq]
    · simp only [fsStore, if_neg hq, fsLookup, ih]

theorem fsLookup_createIfAbsent (fs : FileSystem) (p : String) :
    fsLookup (fsCreateIfAbsent fs p) p = some ((fsLookup fs p).getD "") := by
  cases h : fsLookup fs p with
  | some old => simp [fsCreateIfAbsent, h]
  | none =>
    simp only [fsCreateIfAbsent, h]
    rw [fsLookup_append_of_none _ h]
    simp [fsLookup]

theorem fsLookup_store_create (fs : FileSystem) (p c : String) :
    fsLookup (fsStore (fsCreateIfAbsent fs p) p c) p =
      some (overwriteFrom0 ((fsLookup fs p).getD "") c) := by
  rw [fsLookup_store, fsLookup_createIfAbsent]

theorem overwriteFrom0_empty (c : String) : overwriteFrom0 "" c = c := by
  apply stringDataExt
  show c.data ++ List.drop c.data.length [] = c.data
  simp

theorem goSprintf_logLine (m : String) : goSprintf logLineFmt [m] = m ++ "\n" := rfl

theorem goSprintf_fileURL (a : String) : goSprintf fileURLFmt [a] = "/file/" ++ a := by
  have h : goSprintf fileURLFmt [a] = ⟨"/file/".data ++ (a.data ++ [])⟩ := rfl
  rw [h]
  apply stringDataExt
  simp

theorem goSprintf_disposition (a : String) :
    goSprintf dispositionFmt [a] = "inline; filename=\"" ++ a ++ "\"" := by
  have h : goSprintf dispositionFmt [a]
      = ⟨"inline; filename=\"".data ++ (a.data ++ ['\"'])⟩ := rfl
  rw [h]
  apply stringDataExt
  show "inline; filename=\"".data ++ (a.data ++ ['\"']) =
    ("inline; filename=\"".data ++ a.data) ++ "\"".data
  rw [List.append_assoc]

theorem strDropFile (i : String) :
    (⟨(("/file/" ++ i) : String).data.drop 6⟩ : String) = i := by
  apply stringDataExt
  show ("/file/".data ++ i.data).drop 6 = i.data
  rfl

theorem filepathRel_join (r : String) (hr : r ≠ "") :
    filepathRel uploadsDir (filepathJoin uploadsDir r) = some r := by
  have hrd : r.data ≠ [] := fun h => hr (stringDataExt h)
  have hc1 : ¬ (uploadsDir.data.isEmpty = true) := by decide
  have hc2 : ¬ (r.data.isEmpty = true) := by
    intro h
    exact hrd (List.isEmpty_iff.mp h)
  have hj : filepathJoin uploadsDir r = ⟨uploadsDir.data ++ '/' :: r.data⟩ := by
    unfold filepathJoin
    rw [if_neg hc1, if_neg hc2]
  rw [hj]
  unfold filepathRel
  have hne : ¬ ((⟨uploadsDir.data ++ '/' :: r.data⟩ : String) = uploadsDir) := by
    intro h
    have h2 := congrArg String.data h
    have h3 := congrArg List.length h2
    simp at h3
  have hpre : List.isPrefixOf (uploadsDir.data ++ ['/'])
      ((⟨uploadsDir.data ++ '/' :: r.data⟩ : String).data) = true := by
    show List.isPrefixOf (uploadsDir.data ++ ['/']) (uploadsDir.data ++ '/' :: r.data) = true
    rw [show ('/' :: r.data) = ['/'] ++ r.data from rfl, ← List.append_assoc]
    exact isPrefixOf_self_append _ _
  rw [if_neg hne, if_pos hpre]
  congr 1

/-- A storage-directory state, as the enumeration `filepath.Walk` over the
storage root produces it: the root itself first (a directory), then each
entry at its path relative to the root, joined onto the root, with its
`IsDir` flag. -/
def walkOf (entries : List (String × Bool)) : List (String × Bool) :=
  (uploadsDir, true) :: entries.map (fun e => (filepathJoin uploadsDir e.1, e.2))

theorem getFileListAux_walkOf (entries : List (String × Bool))
    (acc : List FileMetadata) (h : ∀ e ∈ entries, e.1 ≠ "") :
    getFileListAux (entries.map (fun e => (filepathJoin uploadsDir e.1, e.2))) acc =
      some (acc ++ (entries.filter (fun e => !e.2)).map
        (fun e => ⟨e.1, filepathBase e.1⟩)) := by
  induction entries generalizing acc with
  | nil => simp [getFileListAux]
  | cons e rest ih =>
    obtain ⟨r, d⟩ := e
    have hr : r ≠ "" := h (r, d) (List.mem_cons_self _ _)
    have hrest : ∀ x ∈ rest, x.1 ≠ "" := fun x hx => h x (List.mem_cons_of_mem _ hx)
    cases d with
    | true =>
      show getFileListAux ((filepathJoin uploadsDir r, true) ::
          rest.map (fun e => (filepathJoin uploadsDir e.1, e.2))) acc = _
      simp only [getFileListAux, if_pos rfl]
      rw [ih acc hrest]
      simp [List.filter]
    | false =>
      show getFileListAux ((filepathJoin uploadsDir r, false) ::
          rest.map (fun e => (filepathJoin uploadsDir e.1, e.2))) acc = _
      simp only [getFileListAux, if_neg Bool.false_ne_true, filepathRel_join r hr]
      have step := ih (acc ++ [(⟨r, filepathBase r⟩ : FileMetadata)]) hrest
      rw [step]
      simp [List.filter]

/-!  ### Demonstration fixtures used by the closed witness theorems -/

def demoCfg : Config := ⟨8080, false, "", "", false⟩

def demoMime : String → String := fun _ => ""

def demoFS : FileSystem := [("uploads/x.bin", "B")]

def demoEntries : List (String × Bool) :=
  [("a.txt", false), ("sub", true), ("sub/b.txt", false)]

def preexistingFS : FileSystem := [("uploads/X.txt", "ABCDEF")]

def missingArtifact : String := "%!s(MISSING)"

/-!  ### The claims -/

/-- C1: every successful POST /upload returns the identifier
`<generated UUID><final dot-extension of the original filename>` and embeds
it in the success page's `/file/<identifier>` link; a file named
`report.final.pdf` yields an identifier ending in `.pdf`. -/
theorem upload_identifier_spec (cfg : Config) (u filename content now : String)
    (lo lw : Bool) (fs : FileSystem) (logFile : Option String) :
    (uploadHandler cfg "POST" (some (filename, content)) (some u) true true lo lw
        now fs logFile).response
      = Response.html (goSprintf uploadOkFmt
          [cfg.CustomHTMLHead, cfg.CustomHTMLBody,
            goSprintf fileURLFmt [u ++ filepathExt filename]])
    ∧ goSprintf fileURLFmt [u ++ filepathExt filename]
        = "/file/" ++ (u ++ filepathExt filename)
    ∧ filepathExt "report.final.pdf" = ".pdf"
    ∧ strEndsWith (u ++ filepathExt "report.final.pdf") ".pdf" = true := by
  refine ⟨rfl, goSprintf_fileURL _, rfl, ?_⟩
  show strEndsWith (u ++ ".pdf") ".pdf" = true
  exact strEndsWith_append u ".pdf"

/-- C2: `getFileList` walks the storage directory recursively, skips
directory entries (including the root), and yields for every file an entry
whose identifier is its path relative to the storage root and whose display
name is the base name of that relative path. -/
theorem getFileList_spec (entries : List (String × Bool))
    (h : ∀ e ∈ entries, e.1 ≠ "") :
    getFileList false (walkOf entries) =
      some ((entries.filter (fun e => !e.2)).map
        (fun e => ⟨e.1, filepathBase e.1⟩)) := by
  show getFileListAux ((uploadsDir, true) ::
      entries.map (fun e => (filepathJoin uploadsDir e.1, e.2))) [] = _
  simp only [getFileListAux, if_pos rfl]
  have step := getFileListAux_walkOf entries [] h
  rw [step]
  simp

/-- Witness for C2 at a concrete nested directory state. -/
theorem getFileList_spec_witness :
    (∀ e ∈ demoEntries, e.1 ≠ "") ∧
      getFileList false (walkOf demoEntries) =
        some [⟨"a.txt", "a.txt"⟩, ⟨"sub/b.txt", "b.txt"⟩] :=
  ⟨by decide, by rw [getFileList_spec demoEntries (by decide)]; rfl⟩

/-- C3: GET /file/<i> joins `i` onto the storage root and answers 404 iff
the joined path does not exist; when it exists the file body is served. -/
theorem fileHandler_resolve_spec (mimeTable : String → String) (cfg : Config)
    (fs : FileSystem) (i : String) :
    (fileHandler mimeTable cfg "GET" ("/file/" ++ i) fs = Response.notFound
      ↔ fsLookup fs (filepathJoin uploadsDir i) = none)
    ∧ (∀ content, fsLookup fs (filepathJoin uploadsDir i) = some content →
        ∃ d t, fileHandler mimeTable cfg "GET" ("/file/" ++ i) fs
          = Response.file d t content) := by
  have hh : fileHandler mimeTable cfg "GET" ("/file/" ++ i) fs
      = fileServe mimeTable fs i := by
    show fileServe mimeTable fs ⟨(("/file/" ++ i) : String).data.drop 6⟩
        = fileServe mimeTable fs i
    rw [strDropFile]
  rw [hh]
  cases hc : fsLookup fs (filepathJoin uploadsDir i) with
  | none =>
    refine ⟨by simp [fileServe, hc], ?_⟩
    intro content hcontent
    exact absurd hcontent (by simp)
  | some c =>
    refine ⟨by simp [fileServe, hc], ?_⟩
    intro content hcontent
    obtain rfl : c = content := by injection hcontent
    refine ⟨goSprintf dispositionFmt [filepathBase (filepathJoin uploadsDir i)],
      (if mimeTable (filepathExt (filepathBase (filepathJoin uploadsDir i))) = ""
        then "application/octet-stream"
        else mimeTable (filepathExt (filepathBase (filepathJoin uploadsDir i)))), ?_⟩
    simp [fileServe, hc]

/-- Witness for C3: an existing identifier is served with its stored body. -/
theorem fileHandler_resolve_spec_witness :
    fsLookup demoFS (filepathJoin uploadsDir "x.bin") = some "B" ∧
      (∃ d t, fileHandler demoMime demoCfg "GET" ("/file/" ++ "x.bin") demoFS
        = Response.file d t "B") :=
  ⟨by decide,
    (fileHandler_resolve_spec demoMime demoCfg demoFS "x.bin").2 "B" (by decide)⟩

/-- C4: each route answers `http.NotFound` to every HTTP method other than
its single allowed one (GET, POST, GET, GET respectively). -/
theorem method_gate_spec (m : String) (mimeTable : String → String) (cfg : Config)
    (form : Option (String × String)) (entropy : Option String)
    (oOk cOk lo lw walkErr : Bool) (now urlPath : String) (fs : FileSystem)
    (logFile : Option String) (walk : List (String × Bool)) :
    (m ≠ "GET" → indexHandler cfg m = Response.notFound)
    ∧ (m ≠ "POST" →
        uploadHandler cfg m form entropy oOk cOk lo lw now fs logFile
          = ⟨Response.notFound, fs, logFile⟩)
    ∧ (m ≠ "GET" → listHandler cfg m walkErr walk = Response.notFound)
    ∧ (m ≠ "GET" → fileHandler mimeTable cfg m urlPath fs = Response.notFound) := by
  refine ⟨fun h => ?_, fun h => ?_, fun h => ?_, fun h => ?_⟩ <;>
    simp [indexHandler, uploadHandler, listHandler, fileHandler, h]

/-- Witness for C4: `PUT /upload` and `DELETE /list` both answer not-found. -/
theorem method_gate_spec_witness :
    uploadHandler demoCfg "PUT" none none true true true true "" [] none
        = ⟨Response.notFound, [], none⟩
    ∧ listHandler demoCfg "DELETE" false [] = Response.notFound :=
  ⟨(method_gate_spec "PUT" demoMime demoCfg none none true true true true false
      "" "" [] none []).2.1 (by decide),
    (method_gate_spec "DELETE" demoMime demoCfg none none true true true true false
      "" "" [] none []).2.2.1 (by decide)⟩

/-- C5 counterexample: the upload target is opened with `O_WRONLY|O_CREATE`
only — no truncation — so when a file already exists at the target path,
trailing bytes beyond the upload's length survive: uploading `"hi"` over a
pre-existing `"ABCDEF"` leaves `"hiCDEF"`, not `"hi"`. -/
theorem save_truncation_counterexample :
    fsLookup (uploadHandler demoCfg "POST" (some ("a.txt", "hi")) (some "X")
        true true true true "ts" preexistingFS none).fs "uploads/X.txt"
      = some "hiCDEF"
    ∧ ("hiCDEF" : String) ≠ "hi" := by
  refine ⟨by decide, by decide⟩

/-- C5 (amended): Save opens `<storageDir>/<on-disk-name>` creating it if
absent (neither exclusively nor truncating) and streams the upload body
into it from offset zero; the resulting content is the uploaded bytes
followed by any pre-existing bytes beyond the upload's length, hence
exactly the uploaded bytes whenever no file pre-existed at that path. -/
theorem save_semantics_spec (cfg : Config) (u filename content now : String)
    (lo lw : Bool) (fs : FileSystem) (logFile : Option String) :
    fsLookup (uploadHandler cfg "POST" (some (filename, content)) (some u)
        true true lo lw now fs logFile).fs
        (filepathJoin uploadsDir (u ++ filepathExt filename))
      = some (overwriteFrom0
          ((fsLookup fs (filepathJoin uploadsDir (u ++ filepathExt filename))).getD "")
          content)
    ∧ (fsLookup fs (filepathJoin uploadsDir (u ++ filepathExt filename)) = none →
        fsLookup (uploadHandler cfg "POST" (some (filename, content)) (some u)
            true true lo lw now fs logFile).fs
            (filepathJoin uploadsDir (u ++ filepathExt filename))
          = some content) := by
  have hfs : (uploadHandler cfg "POST" (some (filename, content)) (some u)
      true true lo lw now fs logFile).fs
      = fsStore
          (fsCreateIfAbsent fs (filepathJoin uploadsDir (u ++ filepathExt filename)))
          (filepathJoin uploadsDir (u ++ filepathExt filename)) content := rfl
  constructor
  · rw [hfs]
    exact fsLookup_store_create fs _ content
  · intro hnone
    rw [hfs, fsLookup_store_create, hnone]
    simp [overwriteFrom0_empty]

/-- Witness for the amended C5: on an empty storage directory the stored
content is exactly the uploaded bytes. -/
theorem save_semantics_spec_witness :
    fsLookup ([] : FileSystem) (filepathJoin uploadsDir ("X" ++ filepathExt "a.txt"))
        = none
    ∧ fsLookup (uploadHandler demoCfg "POST" (some ("a.txt", "hi")) (some "X")
        true true true true "ts" [] none).fs
        (filepathJoin uploadsDir ("X" ++ filepathExt "a.txt")) = some "hi" :=
  ⟨by decide,
    (save_semantics_spec demoCfg "X" "a.txt" "hi" "ts" true true [] none).2 (by decide)⟩

/-- C6: when entropy fails, `generateUUID` returns `""`, and the upload
still proceeds: the file is stored at `<storageDir>/<ext>` (only the
original extension), the success page links `/file/<ext>`, and the HTTP
outcome (status) is the same as with working entropy. -/
theorem entropy_failure_spec (cfg : Config) (u filename content now : String)
    (lo lw : Bool) (fs : FileSystem) (logFile : Option String) :
    generateUUID none = ""
    ∧ (uploadHandler cfg "POST" (some (filename, content)) none
        true true lo lw now fs logFile).response
      = Response.html (goSprintf uploadOkFmt
          [cfg.CustomHTMLHead, cfg.CustomHTMLBody,
            goSprintf fileURLFmt [filepathExt filename]])
    ∧ fsLookup (uploadHandler cfg "POST" (some (filename, content)) none
        true true lo lw now fs logFile).fs
        (filepathJoin uploadsDir (filepathExt filename))
      = some (overwriteFrom0
          ((fsLookup fs (filepathJoin uploadsDir (filepathExt filename))).getD "")
          content)
    ∧ statusOf (uploadHandler cfg "POST" (some (filename, content)) none
        true true lo lw now fs logFile).response
      = statusOf (uploadHandler cfg "POST" (some (filename, content)) (some u)
        true true lo lw now fs logFile).response := by
  refine ⟨rfl, rfl, ?_, rfl⟩
  exact fsLookup_store_create fs _ content

/-- C7: a served file carries `Content-Disposition: inline` with the base
filename of the resolved path, and a Content-Type chosen by the filename's
extension with fallback `application/octet-stream` when the extension has
no known type. -/
theorem file_headers_spec (mimeTable : String → String) (cfg : Config)
    (fs : FileSystem) (i content : String)
    (h : fsLookup fs (filepathJoin uploadsDir i) = some content) :
    fileHandler mimeTable cfg "GET" ("/file/" ++ i) fs
      = Response.file
          ("inline; filename=\"" ++ filepathBase (filepathJoin uploadsDir i) ++ "\"")
          (if mimeTable (filepathExt (filepathBase (filepathJoin uploadsDir i))) = ""
            then "application/octet-stream"
            else mimeTable (filepathExt (filepathBase (filepathJoin uploadsDir i))))
          content := by
  have hh : fileHandler mimeTable cfg "GET" ("/file/" ++ i) fs
      = fileServe mimeTable fs i := by
    show fileServe mimeTable fs ⟨(("/file/" ++ i) : String).data.drop 6⟩
        = fileServe mimeTable fs i
    rw [strDropFile]
  rw [hh]
  simp [fileServe, h, goSprintf_disposition]

/-- Witness for C7: an unknown extension falls back to the generic binary
Content-Type, with the inline disposition naming the base filename. -/
theorem file_headers_spec_witness :
    fsLookup demoFS (filepathJoin uploadsDir "x.bin") = some "B"
    ∧ fileHandler demoMime demoCfg "GET" ("/file/" ++ "x.bin") demoFS
      = Response.file "inline; filename=\"x.bin\"" "application/octet-stream" "B" := by
  refine ⟨by decide, ?_⟩
  rw [file_headers_spec demoMime demoCfg demoFS "x.bin" "B" (by decide)]
  decide

/-- C8: a completed upload appends exactly one line to the log file
(created if absent): the original filename, suffixed with the formatted
timestamp exactly when `log_timestamp` is set; failure of the log write
leaves the upload's HTTP response unchanged. -/
theorem logging_spec (cfg : Config) (u filename content now msg : String)
    (lo lw : Bool) (fs : FileSystem) (logFile : Option String) :
    (uploadHandler cfg "POST" (some (filename, content)) (some u)
        true true lo lw now fs logFile).logFile
      = writeLog lo lw logFile
          (if cfg.LogTimestamp then filename ++ goSprintf logTimestampFmt [now]
            else filename)
    ∧ writeLog true true logFile msg = some (logFile.getD "" ++ (msg ++ "\n"))
    ∧ (uploadHandler cfg "POST" (some (filename, content)) (some u)
        true true false false now fs logFile).response
      = (uploadHandler cfg "POST" (some (filename, content)) (some u)
        true true true true now fs logFile).response := by
  refine ⟨rfl, ?_, rfl⟩
  show some (logFile.getD "" ++ goSprintf logLineFmt [msg])
      = some (logFile.getD "" ++ (msg ++ "\n"))
  rw [goSprintf_logLine]

/-- C9: `enable_xss_protection` is never consulted: two runs of any handler
on configurations differing only in that flag give identical responses (for
the upload handler, identical full results). -/
theorem xss_flag_unused_spec (p : Int) (lt x y : Bool) (hh hb : String)
    (m urlPath now : String) (mimeTable : String → String)
    (form : Option (String × String)) (entropy : Option String)
    (oOk cOk lo lw walkErr : Bool) (fs : FileSystem) (logFile : Option String)
    (walk : List (String × Bool)) :
    indexHandler ⟨p, lt, hh, hb, x⟩ m = indexHandler ⟨p, lt, hh, hb, y⟩ m
    ∧ uploadHandler ⟨p, lt, hh, hb, x⟩ m form entropy oOk cOk lo lw now fs logFile
      = uploadHandler ⟨p, lt, hh, hb, y⟩ m form entropy oOk cOk lo lw now fs logFile
    ∧ listHandler ⟨p, lt, hh, hb, x⟩ m walkErr walk
      = listHandler ⟨p, lt, hh, hb, y⟩ m walkErr walk
    ∧ fileHandler mimeTable ⟨p, lt, hh, hb, x⟩ m urlPath fs
      = fileHandler mimeTable ⟨p, lt, hh, hb, y⟩ m urlPath fs :=
  ⟨rfl, rfl, rfl, rfl⟩

theorem listBody_hasArtifact (files : List FileMetadata) :
    hasOccur missingArtifact.data (listPageBody files).data = true := by
  have hpre : hasOccur missingArtifact.data (goSprintf listPreFmt []).data = true := by
    decide
  show hasOccur missingArtifact.data
      (((goSprintf listPreFmt []).data ++
          (String.join (files.map
            (fun f => goSprintf listRowFmt [f.ID, f.Filename]))).data) ++
        (goSprintf listPostFmt []).data) = true
  rw [List.append_assoc]
  exact hasOccur_append _ hpre

set_option maxRecDepth 100000 in
/-- C10: the `/list` preamble `Fprintf` passes a format string with two
`%s` verbs (and one further bare `%` in the CSS) but NO arguments, so the
`/list` response is identical across configurations differing in the HTML
fragments (indeed across all configurations) and carries the
`%!s(MISSING)` artifact at both fragment positions. -/
theorem list_preamble_constant_spec (p q : Int) (lt lt2 x y : Bool)
    (hh hb hh2 hb2 : String) (m : String) (walkErr : Bool)
    (walk : List (String × Bool)) (files : List FileMetadata) :
    listHandler ⟨p, lt, hh, hb, x⟩ m walkErr walk
      = listHandler ⟨q, lt2, hh2, hb2, y⟩ m walkErr walk
    ∧ countOccur "%s".data listPreFmt.data = 2
    ∧ countOccur ['%'] listPreFmt.data = 3
    ∧ countOccur missingArtifact.data (goSprintf listPreFmt []).data = 2
    ∧ (getFileList walkErr walk = some files →
        listHandler ⟨p, lt, hh, hb, x⟩ "GET" walkErr walk
            = Response.html (listPageBody files)
        ∧ hasOccur missingArtifact.data (listPageBody files).data = true) := by
  refine ⟨rfl, by decide, by decide, by decide, fun h => ⟨?_, listBody_hasArtifact files⟩⟩
  simp [listHandler, h]

/-- Witness for C10 at a concrete one-file directory state. -/
theorem list_preamble_constant_spec_witness :
    getFileList false [("uploads", true), ("uploads/a.txt", false)]
        = some [⟨"a.txt", "a.txt"⟩]
    ∧ (listHandler ⟨0, false, "H", "B", true⟩ "GET" false
          [("uploads", true), ("uploads/a.txt", false)]
        = Response.html (listPageBody [⟨"a.txt", "a.txt"⟩])
      ∧ hasOccur missingArtifact.data
          (listPageBody [⟨"a.txt", "a.txt"⟩]).data = true) :=
  ⟨by decide,
    (list_preamble_constant_spec 0 0 false false true true "H" "B" "" "" "GET" false
        [("uploads", true), ("uploads/a.txt", false)] [⟨"a.txt", "a.txt"⟩]).2.2.2.2
      (by decide)⟩
